import Mathlib

/-!
Verification of the Conversation Analytics & Retention subsystem of
PandaWiki (`backend/handler/mq/stat.go` and the conversation usecase):
the trailing-citation-block extractor, the geo-enrichment orchestration,
the nonce gate and the retention sweep.

The citation extractor is driven by two Go regular expressions compiled
with `regexp.MustCompile` (RE2 with leftmost-first, Perl-like matching
semantics).  We embed the fragment of RE2 actually used by those two
patterns: literal characters, the classes `\s`, `\d` and `.` (with and
without the `s` flag), concatenation, alternation, greedy and lazy
repetition, `?`, capture groups, and the `(?m)` anchors `^` and `$`.
The matcher below is a backtracking search returning the first result in
preference order, which is exactly what the Go `regexp` package
documents: the leftmost match, and among those the one a backtracking
search starting at the beginning of the pattern would find first.
-/

namespace PandaWiki

/-- Character classes occurring in the two patterns of
`extractReferencesBlock`.  In RE2, `\s` is `[\t\n\f\r ]` and `\d` is
`[0-9]`; `.` matches any character when the `s` flag is set
(`dotAll`), and any character except a newline otherwise
(`dotNoNL`). -/
inductive CClass where
  | ws
  | digit
  | dotAll
  | dotNoNL
deriving DecidableEq

def CClass.holds : CClass → Char → Bool
  | .ws, c => c = ' ' || c = '\t' || c = '\n' || c = '\x0c' || c = '\r'
  | .digit, c => '0' ≤ c && c ≤ '9'
  | .dotAll, _ => true
  | .dotNoNL, c => c ≠ '\n'

/-- Abstract form of the RE2 fragment used by `extractReferencesBlock`.
`starG`/`starL` are greedy and lazy `*`; `optG` is greedy `?`;
`lineStart`/`lineEnd` are `^` and `$` under the `m` flag. -/
inductive RE where
  | eps
  | chr (c : Char)
  | cls (cc : CClass)
  | cat (r₁ r₂ : RE)
  | alt (r₁ r₂ : RE)
  | starG (r : RE)
  | starL (r : RE)
  | optG (r : RE)
  | group (i : Nat) (r : RE)
  | lineStart
  | lineEnd

/-- Recorded captures: group index with start and end offsets. -/
abbrev Caps := List (Nat × Nat × Nat)

/-- Backtracking matcher in continuation-passing style.  The first
success in preference order wins, which realises RE2's leftmost-first
(Perl-like) disambiguation: alternation prefers its left branch, greedy
repetition prefers one more iteration, lazy repetition prefers stopping.
An iteration of a star that consumes nothing is pruned, as in RE2.
`fuel` bounds the nesting depth of the search; every pattern in this
file is matched with far more fuel than the search can consume. -/
def matchRE (input : List Char) : Nat → RE → Nat → Caps →
    (Nat → Caps → Option (Nat × Caps)) → Option (Nat × Caps)
  | 0, _, _, _, _ => none
  | fuel + 1, r, pos, caps, k =>
    match r with
    | .eps => k pos caps
    | .chr c =>
      match input.get? pos with
      | some c' => if c' = c then k (pos + 1) caps else none
      | none => none
    | .cls cc =>
      match input.get? pos with
      | some c' => if cc.holds c' then k (pos + 1) caps else none
      | none => none
    | .cat r₁ r₂ =>
      matchRE input fuel r₁ pos caps fun pos' caps' =>
        matchRE input fuel r₂ pos' caps' k
    | .alt r₁ r₂ =>
      match matchRE input fuel r₁ pos caps k with
      | some res => some res
      | none => matchRE input fuel r₂ pos caps k
    | .starG r₀ =>
      match matchRE input fuel r₀ pos caps (fun pos' caps' =>
          if pos' = pos then none
          else matchRE input fuel (.starG r₀) pos' caps' k) with
      | some res => some res
      | none => k pos caps
    | .starL r₀ =>
      match k pos caps with
      | some res => some res
      | none =>
        matchRE input fuel r₀ pos caps fun pos' caps' =>
          if pos' = pos then none
          else matchRE input fuel (.starL r₀) pos' caps' k
    | .optG r₀ =>
      match matchRE input fuel r₀ pos caps k with
      | some res => some res
      | none => k pos caps
    | .group i r₀ =>
      matchRE input fuel r₀ pos caps fun pos' caps' =>
        k pos' ((i, pos, pos') :: caps')
    | .lineStart =>
      if pos = 0 ∨ input.get? (pos - 1) = some '\n' then k pos caps else none
    | .lineEnd =>
      if pos = input.length ∨ input.get? pos = some '\n' then k pos caps else none

/-- Fuel that is ample for the two fixed patterns on any input. -/
def matchFuel (input : List Char) : Nat :=
  64 * (input.length + 64)

/-- Try to match `re` at offset `pos`, returning the end offset and the
captures of the preferred match. -/
def matchAt (re : RE) (input : List Char) (pos : Nat) : Option (Nat × Caps) :=
  matchRE input (matchFuel input) re pos [] fun e caps => some (e, caps)

/-- Leftmost match at or after `pos`: the smallest start offset at which
the pattern matches, as in Go's find loop. -/
def findFromAux (re : RE) (input : List Char) : Nat → Nat → Option (Nat × Nat × Caps)
  | 0, _ => none
  | fuel + 1, pos =>
    match matchAt re input pos with
    | some (e, caps) => some (pos, e, caps)
    | none => findFromAux re input fuel (pos + 1)

def findFrom (re : RE) (input : List Char) (pos : Nat) : Option (Nat × Nat × Caps) :=
  findFromAux re input (input.length + 1 - pos) pos

/-- Successive non-overlapping leftmost matches, scanning forward from
the end of each match (one position forward after an empty match), as
Go's `FindAll` functions with a negative limit do. -/
def findAllAux (re : RE) (input : List Char) : Nat → Nat → List (Nat × Nat × Caps)
  | 0, _ => []
  | fuel + 1, pos =>
    match findFrom re input pos with
    | none => []
    | some (s, e, caps) =>
      (s, e, caps) :: findAllAux re input fuel (if s < e then e else s + 1)

def findAll (re : RE) (input : List Char) : List (Nat × Nat × Caps) :=
  findAllAux re input (input.length + 1) 0

/-- Counterpart of Go's `FindAllStringIndex(text, -1)`: the (start, end)
offset pairs of all matches. -/
def findAllIndex (re : RE) (input : List Char) : List (Nat × Nat) :=
  (findAll re input).map fun m => (m.1, m.2.1)

/-- Value of capture group `i` in a capture list: the most recently
completed capture wins, as in RE2. -/
def capGet (caps : Caps) (i : Nat) : Option (Nat × Nat) :=
  match caps.find? (fun t => t.1 == i) with
  | some t => some t.2
  | none => none

def sliceStr (input : List Char) (s e : Nat) : List Char :=
  (input.drop s).take (e - s)

/-- One row of Go's `FindAllStringSubmatch` output: the whole match
followed by the `n` numbered groups (empty string for an unset group). -/
def submatchRow (input : List Char) (n : Nat) (m : Nat × Nat × Caps) : List String :=
  String.mk (sliceStr input m.1 m.2.1) ::
    (List.range n).map fun i =>
      match capGet m.2.2 (i + 1) with
      | some p => String.mk (sliceStr input p.1 p.2)
      | none => ""

/-- Counterpart of Go's `FindAllStringSubmatch(text, -1)` for a pattern
with `n` capture groups. -/
def findAllSubmatch (re : RE) (n : Nat) (input : List Char) : List (List String) :=
  (findAll re input).map (submatchRow input n)

/-- Fold a literal string into a concatenation of literal characters. -/
def strRE (s : String) : RE :=
  s.data.foldr (fun c r => RE.cat (RE.chr c) r) RE.eps

def catList (rs : List RE) : RE :=
  rs.foldr RE.cat RE.eps

/-- The quote marker `(?:>|\\u003e)`: a literal `>` or the six literal
characters `>`. -/
def quoteRE : RE :=
  RE.alt (RE.chr '>') (strRE "\\u003e")

def wsStar : RE := RE.starG (RE.cls .ws)

def digitPlus : RE := RE.cat (RE.cls .digit) (RE.starG (RE.cls .digit))

/-- One repetition of the block pattern of `extractReferencesBlock`:
`(?:>|\\u003e)\s*\[\d+\]\.\s*\[.*?\]\(.*?\)\s*\n?` under flags `ms`,
so the dots also match newlines. -/
def blockUnit : RE :=
  catList [quoteRE, wsStar, RE.chr '[', digitPlus, RE.chr ']', RE.chr '.',
    wsStar, RE.chr '[', RE.starL (RE.cls .dotAll), RE.chr ']', RE.chr '(',
    RE.starL (RE.cls .dotAll), RE.chr ')', wsStar, RE.optG (RE.chr '\n')]

/-- The block pattern
`(?ms)((?:>|\\u003e)\s*\[\d+\]\.\s*\[.*?\]\(.*?\)\s*\n?)+$` of
`extractReferencesBlock`.  Because of the `m` flag, the final `$`
matches at the end of the text or before any newline. -/
def reBlock : RE :=
  RE.cat (RE.cat (RE.group 1 blockUnit) (RE.starG (RE.group 1 blockUnit))) RE.lineEnd

/-- The line pattern
`(?m)^(?:>|\\u003e)\s*\[(\d+)\]\.\s*\[(.*?)\]\((.*?)\)` of
`extractReferencesBlock`; its dots do not match newlines. -/
def reLine : RE :=
  catList [RE.lineStart, quoteRE, wsStar, RE.chr '[', RE.group 1 digitPlus,
    RE.chr ']', RE.chr '.', wsStar, RE.chr '[',
    RE.group 2 (RE.starL (RE.cls .dotNoNL)), RE.chr ']', RE.chr '(',
    RE.group 3 (RE.starL (RE.cls .dotNoNL)), RE.chr ')']

/-- The fields of `domain.ConversationReference` that
`extractReferencesBlock` populates: display name, target URL, owning
conversation identifier, owning application identifier.  The ordinal
captured by the line pattern is not stored on the record. -/
structure ConversationReference where
  Name : String
  URL : String
  ConversationID : String
  AppID : String
deriving DecidableEq, Repr

/-- Loop body of the reference-building loop of
`extractReferencesBlock`: append one reference per line match, keeping
the source's guard that a match row has four entries. -/
def lineRefStep (conversationID appID : String)
    (refs : List ConversationReference) (m : List String) :
    List ConversationReference :=
  if m.length = 4 then
    refs ++ [{ Name := m.getD 2 "", URL := m.getD 3 "",
               ConversationID := conversationID, AppID := appID }]
  else refs

/-- The reference-building loop of `extractReferencesBlock`: one
reference per match of the line pattern over the block slice. -/
def lineRefs (conversationID appID : String) (block : List Char) :
    List ConversationReference :=
  (findAllSubmatch reLine 3 block).foldl (lineRefStep conversationID appID) []

/-- Embedding of `extractReferencesBlock` from the conversation usecase:
find all matches of the block pattern, slice the text from the start of
the last match, run the line pattern over the slice, and build one
reference per line match. -/
def extractReferencesBlock (conversationID appID text : String) :
    List ConversationReference :=
  match (findAllIndex reBlock text.data).getLast? with
  | none => []
  | some lastMatch => lineRefs conversationID appID (text.data.drop lastMatch.1)

/-!
Orchestration of the conversation usecase.  The collaborators that
`ConversationUsecase` calls (`pg.ConversationRepository`,
`ipdb.IPAddressRepo`, `cache.GeoRepo`) live outside the shown source,
so each one is passed in as an explicit function returning
`Except String α`; the orchestration itself follows the Go source
line by line.  Log output and issued lookups are returned explicitly so
that the theorems can speak about them.
-/

/-- Resolved location, from `domain.IPAddress` as used by the source:
country, province, city. -/
structure IPAddress where
  Country : String
  Province : String
  City : String
deriving DecidableEq, Repr

/-- One row of `GetConversationList`.  The fields the source touches are
the remote IP and the resolved address; `info` stands for the remaining
fields of `domain.ConversationListItem` (identifier, subject,
timestamps, ...), which the shown source never reads. -/
structure ConversationListItem where
  RemoteIP : String
  ipAddress : Option IPAddress
  info : String
deriving DecidableEq, Repr

/-- The fields of `domain.ConversationMessage` read by the source:
identifier, application identifier and free-text content. -/
structure ConversationMessage where
  ID : String
  AppID : String
  Content : String
deriving DecidableEq, Repr

/-- Detail record of a conversation.  `info` stands for the fields of
`domain.ConversationDetailResp` the shown source never reads. -/
structure ConversationDetailResp where
  RemoteIP : String
  ipAddress : Option IPAddress
  Messages : List ConversationMessage
  References : List ConversationReference
  info : String
deriving DecidableEq, Repr

/-- The fields of `domain.Conversation` read by `CreateConversation`:
identifier, knowledge-base identifier and remote IP. -/
structure Conversation where
  ID : String
  KBID : String
  RemoteIP : String
  info : String
deriving DecidableEq, Repr

/-- Paginated result, as built by `domain.NewPaginatedResult`. -/
structure PaginatedResult (α : Type) where
  data : α
  total : Nat
deriving DecidableEq, Repr

/-- Association lookup for the request-scoped `ipAddressMap` of
`GetConversationList`. -/
def lookupIP : List (String × IPAddress) → String → Option IPAddress
  | [], _ => none
  | (k, v) :: rest, ip => if k = ip then some v else lookupIP rest ip

/-- Output of the enrichment loop of `GetConversationList`: the updated
rows, the request-scoped map, the IPs passed to the IP repository (one
entry per issued lookup, in order), and the error log. -/
structure EnrichOut where
  items : List ConversationListItem
  seen : List (String × IPAddress)
  lookups : List String
  logs : List String
deriving DecidableEq, Repr

/-- The per-row enrichment loop of `GetConversationList` (the `lo.Map`
body): on a map hit, reuse the stored address; on a miss, issue a
lookup; a failed lookup is logged and leaves the row and the map
untouched; a successful lookup stores the address in the map and on the
row. -/
def enrichRows (getIPAddress : String → Except String IPAddress)
    (seen : List (String × IPAddress)) :
    List ConversationListItem → EnrichOut
  | [] => ⟨[], seen, [], []⟩
  | c :: rest =>
    match lookupIP seen c.RemoteIP with
    | some a =>
      let out := enrichRows getIPAddress seen rest
      ⟨{ c with ipAddress := some a } :: out.items, out.seen, out.lookups, out.logs⟩
    | none =>
      match getIPAddress c.RemoteIP with
      | .error e =>
        let out := enrichRows getIPAddress seen rest
        ⟨c :: out.items, out.seen, c.RemoteIP :: out.lookups,
          ("get ip address failed: " ++ e ++ " ip=" ++ c.RemoteIP) :: out.logs⟩
      | .ok a =>
        let out := enrichRows getIPAddress ((c.RemoteIP, a) :: seen) rest
        ⟨{ c with ipAddress := some a } :: out.items, out.seen,
          c.RemoteIP :: out.lookups, out.logs⟩

/-- Collaborators of `GetConversationList`. -/
structure ListDeps where
  getConversationList : Except String (List ConversationListItem × Nat)
  getIPAddress : String → Except String IPAddress

/-- Embedding of `ConversationUsecase.GetConversationList`: fetch the
page, fail if the fetch fails, otherwise enrich every row best-effort
with the request-scoped map and return the page with its total. -/
def GetConversationList (deps : ListDeps) :
    Except String (PaginatedResult (List ConversationListItem)) × EnrichOut :=
  match deps.getConversationList with
  | .error e => (.error e, ⟨[], [], [], []⟩)
  | .ok (conversations, total) =>
    let out := enrichRows deps.getIPAddress [] conversations
    (.ok ⟨out.items, total⟩, out)

/-- Collaborators of `GetConversationDetail`. -/
structure DetailDeps where
  getConversationDetail : String → Except String ConversationDetailResp
  getIPAddress : String → Except String IPAddress
  getConversationMessagesByID : String → Except String (List ConversationMessage)
  getConversationReferences : String → Except String (List ConversationReference)

/-- Embedding of `ConversationUsecase.GetConversationDetail`: the
conversation fetch, the message fetch and the reference fetch are each
fatal on failure; the IP resolution in between is logged on failure and
the call proceeds with the row unchanged. -/
def GetConversationDetail (deps : DetailDeps) (conversationID : String) :
    Except String ConversationDetailResp × List String :=
  match deps.getConversationDetail conversationID with
  | .error e => (.error e, [])
  | .ok conversation =>
    let enriched :=
      match deps.getIPAddress conversation.RemoteIP with
      | .error e =>
        (conversation, ["get ip address failed: " ++ e ++ " ip=" ++ conversation.RemoteIP])
      | .ok a => ({ conversation with ipAddress := some a }, [])
    match deps.getConversationMessagesByID conversationID with
    | .error e => (.error e, enriched.2)
    | .ok messages =>
      match deps.getConversationReferences conversationID with
      | .error e => (.error e, enriched.2)
      | .ok references =>
        (.ok { enriched.1 with Messages := messages, References := references },
          enriched.2)

/-- Collaborators of `CreateConversation`. -/
structure CreateDeps where
  createConversation : Conversation → Except String Unit
  getIPAddress : String → Except String IPAddress
  setGeo : String → String → Except String Unit

deriving instance DecidableEq for Except

/-- Observable outcome of `CreateConversation`: the returned value, the
`SetGeo` invocations `(kbID, location)`, the successful cache writes,
and the warning log. -/
structure CreateOut where
  result : Except String Unit
  setGeoCalls : List (String × String)
  geoWrites : List (String × String)
  logs : List String
deriving DecidableEq, Repr

/-- Embedding of `ConversationUsecase.CreateConversation`: persist
first and propagate a persistence error; then resolve the remote IP,
logging a warning and returning success on failure; on success compose
`country|province|city` and write it to the geo cache under the
conversation's knowledge-base identifier, logging a warning and still
returning success if the write fails. -/
def CreateConversation (deps : CreateDeps) (conversation : Conversation) : CreateOut :=
  match deps.createConversation conversation with
  | .error e => ⟨.error e, [], [], []⟩
  | .ok _ =>
    let remoteIP := conversation.RemoteIP
    match deps.getIPAddress remoteIP with
    | .error e =>
      ⟨.ok (), [], [], ["get ip address failed: " ++ e ++ " ip=" ++ remoteIP]⟩
    | .ok ipAddress =>
      let location := ipAddress.Country ++ "|" ++ ipAddress.Province ++ "|" ++ ipAddress.City
      match deps.setGeo conversation.KBID location with
      | .error e =>
        ⟨.ok (), [(conversation.KBID, location)], [],
          ["set geo cache failed: " ++ e ++ " ip=" ++ remoteIP]⟩
      | .ok _ =>
        ⟨.ok (), [(conversation.KBID, location)], [(conversation.KBID, location)], []⟩

/-!
Nonce validation.  `ConversationUsecase.ValidateConversationNonce`
delegates to `pg.ConversationRepository.ValidateConversationNonce`,
whose body is not part of the shown source.
-/

/-- Outcome of a nonce validation, from the spec's contract
`validate(conversationID, nonce) -> Ok | Invalid | AlreadyUsed | NotFound`. -/
inductive NonceResult where
  | Ok
  | AlreadyUsed
  | NotFound
deriving DecidableEq, Repr

/-- Store of nonces: the issued, still unused pairs and the consumed
pairs, each keyed by (conversation identifier, nonce). -/
structure NonceStore where
  available : List (String × String)
  used : List (String × String)
deriving DecidableEq, Repr

/-- Modelled from the spec: the body of
`pg.ConversationRepository.ValidateConversationNonce` is not in the
shown source; per the spec it is check-and-consume — a pair already
consumed reports already-used, an issued pair is consumed and reports
success, an unknown pair reports not-found. -/
def ValidateConversationNonce (st : NonceStore) (conversationID nonce : String) :
    NonceResult × NonceStore :=
  if (conversationID, nonce) ∈ st.used then (.AlreadyUsed, st)
  else if (conversationID, nonce) ∈ st.available then
    (.Ok, ⟨st.available.erase (conversationID, nonce),
           (conversationID, nonce) :: st.used⟩)
  else (.NotFound, st)

/-!
Retention sweep.  `StatCronHandler.RemoveOldStatData` is registered on
the cron expression `1 */1 * * *` (hourly) and calls
`pg.StatRepository.RemoveOldData`, whose body is not in the shown
source; the handler's comment fixes its contract: remove stat data
older than 24 hours.
-/

/-- A statistics record: its timestamp in seconds and its payload. -/
structure StatRecord where
  ts : Nat
  info : String
deriving DecidableEq, Repr

/-- Modelled from the spec: the body of
`pg.StatRepository.RemoveOldData` is not in the shown source; per the
spec and the handler's comment it deletes every stat record whose
timestamp is older than 24 hours (86400 seconds) relative to the
current time, and keeps the rest. -/
def RemoveOldData (now : Nat) (records : List StatRecord) : List StatRecord :=
  records.filter fun r => !(decide (r.ts + 86400 < now))

/-- Collaborator of the sweep handler: the repository call, which
either deletes and returns the surviving records or fails. -/
structure StatDeps where
  removeOldData : List StatRecord → Except String (List StatRecord)

/-- Embedding of `StatCronHandler.RemoveOldStatData`: one repository
call per tick; on failure the error is logged and nothing is retried
(the records are left to the next tick); the handler logs its start
and, as in the source, logs completion unconditionally. -/
def RemoveOldStatData (deps : StatDeps) (records : List StatRecord) :
    List StatRecord × List String :=
  match deps.removeOldData records with
  | .error e =>
    (records, ["remove old stat data start",
               "remove old stat data failed: " ++ e,
               "remove old stat data successful"])
  | .ok recs =>
    (recs, ["remove old stat data start", "remove old stat data successful"])

/-!
Derived forms and concrete sample data used by the theorems below.
-/

/-- The effect of one round of the list-enrichment loop on a single row,
when its IP is resolved directly: a row whose IP fails to resolve is
returned unchanged, a row whose IP resolves carries the address. -/
def enrichPure (getIPAddress : String → Except String IPAddress)
    (c : ConversationListItem) : ConversationListItem :=
  match getIPAddress c.RemoteIP with
  | .error _ => c
  | .ok a => { c with ipAddress := some a }

/-- The best-effort geo step of `GetConversationDetail` on the fetched
conversation record. -/
def detailGeoStep (deps : DetailDeps) (conversation : ConversationDetailResp) :
    ConversationDetailResp :=
  match deps.getIPAddress conversation.RemoteIP with
  | .error _ => conversation
  | .ok a => { conversation with ipAddress := some a }

/-- A text that is exactly a two-line citation block. -/
def sampleTwoLine : String := "> [1]. [A](http://a)\n> [2]. [B](http://b)"

/-- The two-line block preceded by a directly adjoining citation line. -/
def samplePrefixed : String :=
  "> [3]. [C](http://c)\n> [1]. [A](http://a)\n> [2]. [B](http://b)"

/-- A citation block that appears only mid-document, with non-citation
text after it. -/
def sampleMidDoc : String := "> [1]. [A](http://a)\nhello"

/-- The same one-line citation block twice — once mid-document, once
later — followed by a citation-shaped line that is not part of any
block match (its trailing `x` prevents the block pattern from
accepting the line). -/
def sampleDoubled : String :=
  "> [1]. [A](http://a)\nprose\n> [1]. [A](http://a)\n> [2]. [B](http://b)x"

def sampleIP : IPAddress := ⟨"CN", "Zhejiang", "Hangzhou"⟩

def sampleConv : Conversation := ⟨"conv1", "kb1", "1.2.3.4", "x"⟩

/-- Collaborators for which every step of conversation creation succeeds. -/
def sampleCreateDeps : CreateDeps :=
  ⟨fun _ => .ok (), fun _ => .ok sampleIP, fun _ _ => .ok ()⟩

/-- List collaborators: two rows share an IP that never resolves. -/
def failingListDeps : ListDeps :=
  ⟨.ok ([⟨"9.9.9.9", none, "r1"⟩, ⟨"9.9.9.9", none, "r2"⟩], 2),
   fun _ => .error "not found"⟩

/-- List collaborators: two rows share an IP that resolves. -/
def okListDeps : ListDeps :=
  ⟨.ok ([⟨"9.9.9.9", none, "r1"⟩, ⟨"9.9.9.9", none, "r2"⟩], 2),
   fun _ => .ok sampleIP⟩

/-- Detail collaborators: the record, message and reference fetches
succeed while the IP never resolves. -/
def sampleDetailDeps : DetailDeps :=
  ⟨fun _ => .ok ⟨"9.9.9.9", none, [], [], "d"⟩,
   fun _ => .error "not found",
   fun _ => .ok [⟨"m1", "app1", "hi"⟩],
   fun _ => .ok [⟨"A", "http://a", "conv1", "app1"⟩]⟩

def sampleNonceStore : NonceStore := ⟨[("conv1", "n1")], []⟩

/-- Sweep collaborator that deletes per the 24-hour contract. -/
def goodStatDeps (now : Nat) : StatDeps := ⟨fun rs => .ok (RemoveOldData now rs)⟩

/-- Sweep collaborator whose deletion always fails. -/
def failingStatDeps : StatDeps := ⟨fun _ => .error "db down"⟩

def oldRec : StatRecord := ⟨1, "old"⟩

def newRec : StatRecord := ⟨199999, "new"⟩

/-!
Theorems.  Shared auxiliary lemmas come first, then one theorem per
claim of the specification (with its witness or counterexample).
-/

theorem getLast?_mem_self {α : Type} :
    ∀ (l : List α) (a : α), l.getLast? = some a → a ∈ l
  | [], _, h => by simp at h
  | [b], a, h => by
    simp [List.getLast?] at h
    simp [h]
  | b :: c :: l, a, h => by
    rw [List.getLast?_cons_cons] at h
    exact List.mem_cons_of_mem _ (getLast?_mem_self (c :: l) a h)

theorem getLast?_map_comm {α β : Type} (f : α → β) :
    ∀ (l : List α), (l.map f).getLast? = (l.getLast?).map f
  | [] => rfl
  | [_] => rfl
  | a :: b :: l => by
    rw [List.map_cons, List.map_cons, List.getLast?_cons_cons,
      List.getLast?_cons_cons, ← List.map_cons]
    exact getLast?_map_comm f (b :: l)

theorem foldl_lineRefStep_mem (cid aid : String) :
    ∀ (ms : List (List String)) (acc : List ConversationReference),
      (∀ r ∈ acc, r.ConversationID = cid ∧ r.AppID = aid) →
      ∀ r ∈ ms.foldl (lineRefStep cid aid) acc,
        r.ConversationID = cid ∧ r.AppID = aid := by
  intro ms
  induction ms with
  | nil =>
    intro acc hacc r hr
    exact hacc r hr
  | cons m ms ih =>
    intro acc hacc r hr
    refine ih (lineRefStep cid aid acc m) ?_ r hr
    intro r' hr'
    unfold lineRefStep at hr'
    split at hr'
    · rcases List.mem_append.mp hr' with h | h
      · exact hacc r' h
      · simp only [List.mem_singleton] at h
        subst h
        exact ⟨rfl, rfl⟩
    · exact hacc r' hr'

theorem lineRefs_ids (cid aid : String) (block : List Char) :
    ∀ r ∈ lineRefs cid aid block, r.ConversationID = cid ∧ r.AppID = aid := by
  intro r hr
  exact foldl_lineRefStep_mem cid aid (findAllSubmatch reLine 3 block) [] (by simp) r hr

/-- C1 (amended): for the input text consisting exactly of the two
lines `> [1]. [A](http://a)` and `> [2]. [B](http://b)`,
`extractReferencesBlock` returns exactly two references, in source
order, whose names are `A` and `B` and whose URLs are `http://a` and
`http://b`, each carrying the caller's conversation and application
identifiers; the ordinal captures of the two line matches are `1` and
`2`.  (The unamended claim, quantified over every text ending in these
two lines, is refuted by `C1_counterexample`.) -/
theorem C1_two_line_block (cid aid : String) :
    extractReferencesBlock cid aid sampleTwoLine =
      [⟨"A", "http://a", cid, aid⟩, ⟨"B", "http://b", cid, aid⟩] ∧
    (findAllSubmatch reLine 3 sampleTwoLine.data).map (fun m => m.getD 1 "") =
      ["1", "2"] :=
  ⟨rfl, rfl⟩

/-- C1 is false as stated: the text `samplePrefixed` ends in the two
lines `> [1]. [A](http://a)` and `> [2]. [B](http://b)`, yet
extraction returns three references, because the preceding adjoining
citation line extends the trailing block. -/
theorem C1_counterexample :
    extractReferencesBlock "c" "a" samplePrefixed =
      [⟨"C", "http://c", "c", "a"⟩, ⟨"A", "http://a", "c", "a"⟩,
       ⟨"B", "http://b", "c", "a"⟩] ∧
    extractReferencesBlock "c" "a" samplePrefixed ≠
      [⟨"A", "http://a", "c", "a"⟩, ⟨"B", "http://b", "c", "a"⟩] :=
  ⟨rfl, by decide⟩

/-- C3 (amended): for every input text on which the block pattern has
no match anywhere — under the pattern's multiline flag its `$` anchors
at any line end, not only at the end of the text —
`extractReferencesBlock` returns the empty sequence (and extraction
never signals an error by construction).  (The unamended claim, which
required only that no block be anchored to the end of the text, is
refuted by `C3_counterexample`.) -/
theorem C3_no_match_empty (cid aid text : String)
    (h : findAllIndex reBlock text.data = []) :
    extractReferencesBlock cid aid text = [] := by
  unfold extractReferencesBlock
  rw [h]
  rfl

theorem C3_witness :
    findAllIndex reBlock ("hello".data) = [] ∧
    extractReferencesBlock "c" "a" "hello" = [] :=
  ⟨by decide, C3_no_match_empty "c" "a" "hello" (by decide)⟩

/-- C3 is false as stated: `sampleMidDoc` has a citation-shaped block
only mid-document, followed by the non-citation text `hello`, so no
block is anchored to the end of the text; extraction still returns
that block's reference, because the multiline `$` of the block pattern
matches at the end of the citation line. -/
theorem C3_counterexample :
    extractReferencesBlock "c" "a" sampleMidDoc = [⟨"A", "http://a", "c", "a"⟩] ∧
    extractReferencesBlock "c" "a" sampleMidDoc ≠ [] :=
  ⟨rfl, by decide⟩

theorem findFromAux_start_ge (re : RE) (input : List Char) :
    ∀ (fuel pos : Nat) (m : Nat × Nat × Caps),
      findFromAux re input fuel pos = some m → pos ≤ m.1 := by
  intro fuel
  induction fuel with
  | zero => intro pos m h; simp [findFromAux] at h
  | succ fuel ih =>
    intro pos m h
    rw [findFromAux] at h
    split at h
    · cases h
      simp
    · exact Nat.le_of_succ_le (ih (pos + 1) m h)

theorem findFrom_start_ge (re : RE) (input : List Char) (pos : Nat)
    (m : Nat × Nat × Caps) (h : findFrom re input pos = some m) : pos ≤ m.1 :=
  findFromAux_start_ge re input (input.length + 1 - pos) pos m h

theorem findAllAux_start_ge (re : RE) (input : List Char) :
    ∀ (fuel pos : Nat) (m : Nat × Nat × Caps),
      m ∈ findAllAux re input fuel pos → pos ≤ m.1 := by
  intro fuel
  induction fuel with
  | zero => intro pos m h; simp [findAllAux] at h
  | succ fuel ih =>
    intro pos m h
    cases heq : findFrom re input pos with
    | none => simp [findAllAux, heq] at h
    | some r =>
      obtain ⟨s, e, caps⟩ := r
      simp only [findAllAux, heq] at h
      have h0 : pos ≤ s := findFrom_start_ge re input pos _ heq
      rcases List.mem_cons.mp h with rfl | ht
      · exact h0
      · have h1 := ih _ m ht
        have h2 : s ≤ (if s < e then e else s + 1) := by
          split
          · omega
          · omega
        exact le_trans (le_trans h0 h2) h1

theorem findAllAux_last_max (re : RE) (input : List Char) :
    ∀ (fuel pos : Nat) (lm m : Nat × Nat × Caps),
      (findAllAux re input fuel pos).getLast? = some lm →
      m ∈ findAllAux re input fuel pos → m.1 ≤ lm.1 := by
  intro fuel
  induction fuel with
  | zero => intro pos lm m h hm; simp [findAllAux] at hm
  | succ fuel ih =>
    intro pos lm m h hm
    cases heq : findFrom re input pos with
    | none => simp [findAllAux, heq] at hm
    | some r =>
      obtain ⟨s, e, caps⟩ := r
      simp only [findAllAux, heq] at h hm
      have h2 : s ≤ (if s < e then e else s + 1) := by
        split
        · omega
        · omega
      cases hr : findAllAux re input fuel (if s < e then e else s + 1) with
      | nil =>
        rw [hr] at h hm
        simp [List.getLast?] at h
        rcases List.mem_singleton.mp hm with rfl
        rw [← h]
      | cons b bs =>
        rw [hr] at h hm
        rw [List.getLast?_cons_cons] at h
        rcases List.mem_cons.mp hm with rfl | ht
        · have hlm : lm ∈ b :: bs := getLast?_mem_self (b :: bs) lm h
          have h1 := findAllAux_start_ge re input fuel
            (if s < e then e else s + 1) lm (hr ▸ hlm)
          exact le_trans h2 h1
        · exact ih _ lm m (hr ▸ h) (hr ▸ ht)

theorem findAllIndex_last_max (re : RE) (input : List Char) (lm : Nat × Nat)
    (h : (findAllIndex re input).getLast? = some lm) :
    ∀ p ∈ findAllIndex re input, p.1 ≤ lm.1 := by
  intro p hp
  unfold findAllIndex at h hp
  rw [getLast?_map_comm] at h
  cases hl : (findAll re input).getLast? with
  | none => rw [hl] at h; simp at h
  | some lm' =>
    rw [hl] at h
    simp only [Option.map_some'] at h
    rcases List.mem_map.mp hp with ⟨q, hq, rfl⟩
    have hle := findAllAux_last_max re input (input.length + 1) 0 lm' q hl hq
    cases h
    simpa using hle

/-- C2 (amended): whenever the block pattern matches at all, the
returned references are exactly those extracted from the text sliced
at the start offset of the last block match — the match with the
greatest start offset among all matches — so references on earlier
lines of the text (in particular every earlier occurrence of a
repeated block) are absent.  (The unamended claim, that the result
consists only of the references of the last-occurring block itself, is
refuted by `C2_counterexample`: the slice runs to the end of the text
and can pick up citation-shaped lines outside any block match.) -/
theorem C2_last_match_wins (cid aid text : String) (m : Nat × Nat)
    (h : (findAllIndex reBlock text.data).getLast? = some m) :
    extractReferencesBlock cid aid text =
      lineRefs cid aid (text.data.drop m.1) ∧
    ∀ p ∈ findAllIndex reBlock text.data, p.1 ≤ m.1 := by
  constructor
  · unfold extractReferencesBlock
    rw [h]
  · exact findAllIndex_last_max reBlock text.data m h

theorem C2_witness :
    (findAllIndex reBlock sampleDoubled.data).getLast? = some (27, 47) ∧
    extractReferencesBlock "c" "a" sampleDoubled =
      lineRefs "c" "a" (sampleDoubled.data.drop 27) :=
  ⟨by decide, (C2_last_match_wins "c" "a" sampleDoubled (27, 47) (by decide)).1⟩

/-- C2 is false as stated: in `sampleDoubled` the same one-line block
`> [1]. [A](http://a)` occurs twice, at offsets 0 and 27; the
last-occurring block consists of that single line, whose references
are exactly the one named `A`, yet extraction also returns the
reference of the trailing citation-shaped line `> [2]. [B](http://b)x`,
which is part of no block match. -/
theorem C2_counterexample :
    findAllIndex reBlock sampleDoubled.data = [(0, 20), (27, 47)] ∧
    String.mk (sliceStr sampleDoubled.data 0 20) =
      String.mk (sliceStr sampleDoubled.data 27 47) ∧
    lineRefs "c" "a" (sliceStr sampleDoubled.data 27 47) =
      [⟨"A", "http://a", "c", "a"⟩] ∧
    extractReferencesBlock "c" "a" sampleDoubled =
      [⟨"A", "http://a", "c", "a"⟩, ⟨"B", "http://b", "c", "a"⟩] ∧
    extractReferencesBlock "c" "a" sampleDoubled ≠
      [⟨"A", "http://a", "c", "a"⟩] :=
  ⟨rfl, rfl, rfl, rfl, by decide⟩

/-- C10: every reference returned by `extractReferencesBlock` carries
the conversationID and appID arguments it was called with as its
owning conversation identifier and owning application identifier, for
every input text. -/
theorem C10_references_carry_ids (cid aid text : String) :
    ∀ r ∈ extractReferencesBlock cid aid text,
      r.ConversationID = cid ∧ r.AppID = aid := by
  intro r hr
  unfold extractReferencesBlock at hr
  split at hr
  · simp at hr
  · exact lineRefs_ids cid aid _ r hr

theorem C10_witness :
    (⟨"A", "http://a", "c1", "a1"⟩ : ConversationReference) ∈
      extractReferencesBlock "c1" "a1" sampleTwoLine ∧
    (⟨"A", "http://a", "c1", "a1"⟩ : ConversationReference).ConversationID = "c1" :=
  ⟨by decide, (C10_references_carry_ids "c1" "a1" sampleTwoLine _ (by decide)).1⟩

theorem lookupIP_mem :
    ∀ (seen : List (String × IPAddress)) (ip : String) (a : IPAddress),
      lookupIP seen ip = some a → (ip, a) ∈ seen := by
  intro seen
  induction seen with
  | nil => intro ip a h; simp [lookupIP] at h
  | cons p rest ih =>
    intro ip a h
    obtain ⟨k, v⟩ := p
    unfold lookupIP at h
    split at h
    · rename_i hk
      cases h
      subst hk
      exact List.mem_cons_self _ _
    · exact List.mem_cons_of_mem _ (ih ip a h)

theorem enrichRows_items_eq (getIP : String → Except String IPAddress) :
    ∀ (rows : List ConversationListItem) (seen : List (String × IPAddress)),
      (∀ p ∈ seen, getIP p.1 = .ok p.2) →
      (enrichRows getIP seen rows).items = rows.map (enrichPure getIP) := by
  intro rows
  induction rows with
  | nil => intro seen _; rfl
  | cons c rest ih =>
    intro seen hseen
    cases hl : lookupIP seen c.RemoteIP with
    | some a =>
      have hok : getIP c.RemoteIP = .ok a := hseen _ (lookupIP_mem seen c.RemoteIP a hl)
      simp only [enrichRows, hl, List.map_cons]
      congr 1
      · unfold enrichPure
        rw [hok]
      · exact ih seen hseen
    | none =>
      cases hg : getIP c.RemoteIP with
      | error e =>
        simp only [enrichRows, hl, hg, List.map_cons]
        congr 1
        · unfold enrichPure
          rw [hg]
        · exact ih seen hseen
      | ok a =>
        simp only [enrichRows, hl, hg, List.map_cons]
        congr 1
        · unfold enrichPure
          rw [hg]
        · refine ih _ ?_
          intro p hp
          rcases List.mem_cons.mp hp with rfl | hpm
          · exact hg
          · exact hseen p hpm

theorem enrichRows_no_lookup_when_seen (getIP : String → Except String IPAddress)
    (ip : String) :
    ∀ (rows : List ConversationListItem) (seen : List (String × IPAddress)),
      lookupIP seen ip ≠ none →
      ((enrichRows getIP seen rows).lookups.count ip) = 0 := by
  intro rows
  induction rows with
  | nil => intro seen _; rfl
  | cons c rest ih =>
    intro seen hs
    cases hl : lookupIP seen c.RemoteIP with
    | some a =>
      simp only [enrichRows, hl]
      exact ih seen hs
    | none =>
      have hne : c.RemoteIP ≠ ip := fun hh => hs (hh ▸ hl)
      cases hg : getIP c.RemoteIP with
      | error e =>
        simp only [enrichRows, hl, hg]
        rw [List.count_cons]
        simp [hne]
        exact ih seen hs
      | ok a =>
        simp only [enrichRows, hl, hg]
        rw [List.count_cons]
        simp [hne]
        refine ih _ ?_
        simp only [lookupIP]
        rw [if_neg hne]
        exact hs

theorem enrichRows_lookup_once (getIP : String → Except String IPAddress)
    (ip : String) (a : IPAddress) (hok : getIP ip = .ok a) :
    ∀ (rows : List ConversationListItem) (seen : List (String × IPAddress)),
      lookupIP seen ip = none →
      ((enrichRows getIP seen rows).lookups.count ip) ≤ 1 := by
  intro rows
  induction rows with
  | nil => intro seen _; simp [enrichRows]
  | cons c rest ih =>
    intro seen hs
    by_cases hceq : c.RemoteIP = ip
    · subst hceq
      simp only [enrichRows, hs, hok]
      rw [List.count_cons]
      have h0 := enrichRows_no_lookup_when_seen getIP c.RemoteIP rest
        ((c.RemoteIP, a) :: seen) (by simp [lookupIP])
      simp [h0]
    · cases hl : lookupIP seen c.RemoteIP with
      | some b =>
        simp only [enrichRows, hl]
        exact ih seen hs
      | none =>
        cases hg : getIP c.RemoteIP with
        | error e =>
          simp only [enrichRows, hl, hg]
          rw [List.count_cons]
          simp [hceq]
          exact ih seen hs
        | ok b =>
          simp only [enrichRows, hl, hg]
          rw [List.count_cons]
          simp [hceq]
          refine ih _ ?_
          simp only [lookupIP]
          rw [if_neg hceq]
          exact hs

/-- C4: `CreateConversation` persists the conversation first and
returns the persistence error if that fails; once persistence
succeeds the call returns success whatever the enrichment does; an IP
resolution failure is logged; on IP resolution success the string
`country|province|city` is passed to the geo cache under the
conversation's knowledge-base identifier, a successful write landing
in the cache and a failed write only being logged. -/
theorem C4_create_persist_first (deps : CreateDeps) (conversation : Conversation) :
    (∀ e, deps.createConversation conversation = .error e →
        (CreateConversation deps conversation).result = .error e) ∧
    (deps.createConversation conversation = .ok () →
      (CreateConversation deps conversation).result = .ok () ∧
      (∀ e, deps.getIPAddress conversation.RemoteIP = .error e →
          (CreateConversation deps conversation).logs =
            ["get ip address failed: " ++ e ++ " ip=" ++ conversation.RemoteIP]) ∧
      (∀ a, deps.getIPAddress conversation.RemoteIP = .ok a →
        (CreateConversation deps conversation).setGeoCalls =
          [(conversation.KBID, a.Country ++ "|" ++ a.Province ++ "|" ++ a.City)] ∧
        (deps.setGeo conversation.KBID
            (a.Country ++ "|" ++ a.Province ++ "|" ++ a.City) = .ok () →
          (CreateConversation deps conversation).geoWrites =
            [(conversation.KBID, a.Country ++ "|" ++ a.Province ++ "|" ++ a.City)]) ∧
        (∀ e, deps.setGeo conversation.KBID
            (a.Country ++ "|" ++ a.Province ++ "|" ++ a.City) = .error e →
          (CreateConversation deps conversation).logs =
            ["set geo cache failed: " ++ e ++ " ip=" ++ conversation.RemoteIP]))) := by
  constructor
  · intro e he
    simp [CreateConversation, he]
  · intro hc
    refine ⟨?_, ?_, ?_⟩
    · cases hg : deps.getIPAddress conversation.RemoteIP with
      | error e => simp [CreateConversation, hc, hg]
      | ok a =>
        cases hs : deps.setGeo conversation.KBID
            (a.Country ++ "|" ++ a.Province ++ "|" ++ a.City) with
        | error e => simp [CreateConversation, hc, hg, hs]
        | ok u => simp [CreateConversation, hc, hg, hs]
    · intro e he
      simp [CreateConversation, hc, he]
    · intro a ha
      refine ⟨?_, ?_, ?_⟩
      · cases hs : deps.setGeo conversation.KBID
            (a.Country ++ "|" ++ a.Province ++ "|" ++ a.City) with
        | error e => simp [CreateConversation, hc, ha, hs]
        | ok u => simp [CreateConversation, hc, ha, hs]
      · intro hs
        simp [CreateConversation, hc, ha, hs]
      · intro e hs
        simp [CreateConversation, hc, ha, hs]

theorem C4_witness :
    (CreateConversation sampleCreateDeps sampleConv).result = .ok () ∧
    (CreateConversation sampleCreateDeps sampleConv).setGeoCalls =
      [("kb1", "CN|Zhejiang|Hangzhou")] := by
  have h := (C4_create_persist_first sampleCreateDeps sampleConv).2 rfl
  exact ⟨h.1, (h.2.2 sampleIP rfl).1⟩

/-- C5: validating the same nonce twice for the same conversation
succeeds on the first call and reports already-used on the second; a
successful validation consumes the nonce (records the pair as used),
and a pair recorded as used stays used across any later validation and
always reports already-used.  Settled against a model of the
repository's check-and-consume contract, whose body is not in the
shown source. -/
theorem C5_nonce_check_and_consume (st : NonceStore) (conversationID nonce : String)
    (hav : (conversationID, nonce) ∈ st.available)
    (hun : (conversationID, nonce) ∉ st.used) :
    (ValidateConversationNonce st conversationID nonce).1 = .Ok ∧
    (conversationID, nonce) ∈ (ValidateConversationNonce st conversationID nonce).2.used ∧
    (ValidateConversationNonce
        (ValidateConversationNonce st conversationID nonce).2
        conversationID nonce).1 = .AlreadyUsed ∧
    (∀ st' : NonceStore, (conversationID, nonce) ∈ st'.used →
        (ValidateConversationNonce st' conversationID nonce).1 = .AlreadyUsed) ∧
    (∀ (st' : NonceStore) (c n : String), (conversationID, nonce) ∈ st'.used →
        (conversationID, nonce) ∈ (ValidateConversationNonce st' c n).2.used) := by
  refine ⟨?_, ?_, ?_, ?_, ?_⟩
  · simp [ValidateConversationNonce, hav, hun]
  · simp [ValidateConversationNonce, hav, hun]
  · simp [ValidateConversationNonce, hav, hun]
  · intro st' h
    simp [ValidateConversationNonce, h]
  · intro st' c n h
    unfold ValidateConversationNonce
    split
    · exact h
    · split
      · exact List.mem_cons_of_mem _ h
      · exact h

theorem C5_witness :
    (ValidateConversationNonce sampleNonceStore "conv1" "n1").1 = .Ok ∧
    (ValidateConversationNonce
        (ValidateConversationNonce sampleNonceStore "conv1" "n1").2
        "conv1" "n1").1 = .AlreadyUsed := by
  have h := C5_nonce_check_and_consume sampleNonceStore "conv1" "n1"
    (by decide) (by decide)
  exact ⟨h.1, h.2.2.1⟩

theorem enrichRows_error_logged (getIP : String → Except String IPAddress) :
    ∀ (rows : List ConversationListItem) (seen : List (String × IPAddress)),
      (∀ p ∈ seen, getIP p.1 = .ok p.2) →
      ∀ c ∈ rows, ∀ e, getIP c.RemoteIP = .error e →
      ("get ip address failed: " ++ e ++ " ip=" ++ c.RemoteIP) ∈
        (enrichRows getIP seen rows).logs := by
  intro rows
  induction rows with
  | nil =>
    intro seen _ c hc
    simp at hc
  | cons c0 rest ih =>
    intro seen hseen c hc e herr
    rcases List.mem_cons.mp hc with rfl | hcm
    · cases hl : lookupIP seen c.RemoteIP with
      | some b =>
        have hok : getIP c.RemoteIP = .ok b :=
          hseen _ (lookupIP_mem seen c.RemoteIP b hl)
        rw [herr] at hok
        simp at hok
      | none =>
        simp only [enrichRows, hl, herr]
        exact List.mem_cons_self _ _
    · cases hl : lookupIP seen c0.RemoteIP with
      | some b =>
        simp only [enrichRows, hl]
        exact ih seen hseen c hcm e herr
      | none =>
        cases hg : getIP c0.RemoteIP with
        | error e0 =>
          simp only [enrichRows, hl, hg]
          exact List.mem_cons_of_mem _ (ih seen hseen c hcm e herr)
        | ok b =>
          simp only [enrichRows, hl, hg]
          refine ih _ ?_ c hcm e herr
          intro p hp
          rcases List.mem_cons.mp hp with rfl | hpm
          · exact hg
          · exact hseen p hpm

/-- C6: a row or detail record whose remote IP fails to resolve never
makes `GetConversationList` or `GetConversationDetail` fail: the list
call returns every row, a failing row passing through unchanged (its
location stays absent, its other fields intact) and its failure
appearing in the call's log; the detail call still returns the record
with its messages and references attached, logging exactly the
resolution failure. -/
theorem C6_ip_failure_non_fatal
    (ldeps : ListDeps) (rows : List ConversationListItem) (total : Nat)
    (hlist : ldeps.getConversationList = .ok (rows, total))
    (ddeps : DetailDeps) (conversationID : String) (conv : ConversationDetailResp)
    (hdet : ddeps.getConversationDetail conversationID = .ok conv)
    (msgs : List ConversationMessage) (refs : List ConversationReference)
    (hm : ddeps.getConversationMessagesByID conversationID = .ok msgs)
    (hrf : ddeps.getConversationReferences conversationID = .ok refs) :
    (GetConversationList ldeps).1 =
      .ok ⟨rows.map (enrichPure ldeps.getIPAddress), total⟩ ∧
    (∀ (c : ConversationListItem) (e : String),
        ldeps.getIPAddress c.RemoteIP = .error e →
        enrichPure ldeps.getIPAddress c = c) ∧
    (∀ e, ddeps.getIPAddress conv.RemoteIP = .error e →
        (GetConversationDetail ddeps conversationID).1 =
          .ok { conv with Messages := msgs, References := refs }) ∧
    (∀ c ∈ rows, ∀ e, ldeps.getIPAddress c.RemoteIP = .error e →
        ("get ip address failed: " ++ e ++ " ip=" ++ c.RemoteIP) ∈
          (GetConversationList ldeps).2.logs) ∧
    (∀ e, ddeps.getIPAddress conv.RemoteIP = .error e →
        (GetConversationDetail ddeps conversationID).2 =
          ["get ip address failed: " ++ e ++ " ip=" ++ conv.RemoteIP]) := by
  refine ⟨?_, ?_, ?_, ?_, ?_⟩
  · simp only [GetConversationList, hlist]
    rw [enrichRows_items_eq ldeps.getIPAddress rows [] (by simp)]
  · intro c e he
    unfold enrichPure
    rw [he]
  · intro e he
    simp [GetConversationDetail, hdet, he, hm, hrf]
  · intro c hc e he
    simp only [GetConversationList, hlist]
    exact enrichRows_error_logged ldeps.getIPAddress rows [] (by simp) c hc e he
  · intro e he
    simp [GetConversationDetail, hdet, he, hm, hrf]

theorem C6_witness :
    (GetConversationList failingListDeps).1 =
      .ok ⟨[⟨"9.9.9.9", none, "r1"⟩, ⟨"9.9.9.9", none, "r2"⟩], 2⟩ ∧
    (GetConversationDetail sampleDetailDeps "conv1").1 =
      .ok ⟨"9.9.9.9", none, [⟨"m1", "app1", "hi"⟩],
           [⟨"A", "http://a", "conv1", "app1"⟩], "d"⟩ ∧
    "get ip address failed: not found ip=9.9.9.9" ∈
      (GetConversationList failingListDeps).2.logs ∧
    (GetConversationDetail sampleDetailDeps "conv1").2 =
      ["get ip address failed: not found ip=9.9.9.9"] := by
  have h := C6_ip_failure_non_fatal failingListDeps
    [⟨"9.9.9.9", none, "r1"⟩, ⟨"9.9.9.9", none, "r2"⟩] 2 rfl
    sampleDetailDeps "conv1" ⟨"9.9.9.9", none, [], [], "d"⟩ rfl
    [⟨"m1", "app1", "hi"⟩] [⟨"A", "http://a", "conv1", "app1"⟩] rfl rfl
  refine ⟨h.1.trans (by rfl), (h.2.2.1 "not found" rfl).trans (by rfl), ?_, ?_⟩
  · have hl := h.2.2.2.1 ⟨"9.9.9.9", none, "r1"⟩ (by decide) "not found" rfl
    exact hl
  · exact (h.2.2.2.2 "not found" rfl).trans (by rfl)

/-- C7: in `GetConversationDetail` a failing conversation fetch, a
failing message fetch and a failing reference fetch each make the
whole call return that error (no partial aggregate); when all three
succeed the call returns the composed record whatever the outcome of
the geo step, which only determines the resolved address on the
returned record. -/
theorem C7_detail_requires_fetches (deps : DetailDeps) (conversationID : String) :
    (∀ e, deps.getConversationDetail conversationID = .error e →
        (GetConversationDetail deps conversationID).1 = .error e) ∧
    (∀ conv, deps.getConversationDetail conversationID = .ok conv →
      (∀ e, deps.getConversationMessagesByID conversationID = .error e →
          (GetConversationDetail deps conversationID).1 = .error e) ∧
      (∀ msgs, deps.getConversationMessagesByID conversationID = .ok msgs →
        (∀ e, deps.getConversationReferences conversationID = .error e →
            (GetConversationDetail deps conversationID).1 = .error e) ∧
        (∀ refs, deps.getConversationReferences conversationID = .ok refs →
            (GetConversationDetail deps conversationID).1 =
              .ok { detailGeoStep deps conv with
                    Messages := msgs, References := refs }))) := by
  constructor
  · intro e he
    simp [GetConversationDetail, he]
  · intro conv hconv
    constructor
    · intro e he
      simp only [GetConversationDetail, hconv, he]
    · intro msgs hm
      constructor
      · intro e he
        simp only [GetConversationDetail, hconv, hm, he]
      · intro refs hrefs
        simp only [GetConversationDetail, detailGeoStep, hconv, hm, hrefs]
        cases hg : deps.getIPAddress conv.RemoteIP with
        | error e' => rfl
        | ok a => rfl

theorem C7_witness :
    (GetConversationDetail sampleDetailDeps "conv1").1 =
      .ok { detailGeoStep sampleDetailDeps ⟨"9.9.9.9", none, [], [], "d"⟩ with
            Messages := [⟨"m1", "app1", "hi"⟩],
            References := [⟨"A", "http://a", "conv1", "app1"⟩] } :=
  ((((C7_detail_requires_fetches sampleDetailDeps "conv1").2
      ⟨"9.9.9.9", none, [], [], "d"⟩ rfl).2
      [⟨"m1", "app1", "hi"⟩] rfl).2
      [⟨"A", "http://a", "conv1", "app1"⟩] rfl)

/-- C8 (amended): within a single `GetConversationList` call, for every
remote IP that resolves successfully, at most one underlying geo
lookup is issued, and every returned row carrying that IP — in
particular every row after the one that issued the single lookup —
carries the resolved location.  (The unamended claim, stated for every
shared IP, is refuted by `C8_counterexample`: a failed resolution is
not stored in the map, so every row carrying an unresolvable IP issues
its own lookup.) -/
theorem C8_lookup_dedup (deps : ListDeps) (rows : List ConversationListItem)
    (total : Nat) (ip : String) (a : IPAddress)
    (hlist : deps.getConversationList = .ok (rows, total))
    (hok : deps.getIPAddress ip = .ok a) :
    ((GetConversationList deps).2.lookups.count ip) ≤ 1 ∧
    (GetConversationList deps).2.items = rows.map (enrichPure deps.getIPAddress) ∧
    (∀ c : ConversationListItem, c.RemoteIP = ip →
        enrichPure deps.getIPAddress c = { c with ipAddress := some a }) := by
  refine ⟨?_, ?_, ?_⟩
  · simp only [GetConversationList, hlist]
    exact enrichRows_lookup_once deps.getIPAddress ip a hok rows [] rfl
  · simp only [GetConversationList, hlist]
    exact enrichRows_items_eq deps.getIPAddress rows [] (by simp)
  · intro c hc
    unfold enrichPure
    rw [hc, hok]

theorem C8_witness :
    ((GetConversationList okListDeps).2.lookups.count "9.9.9.9") ≤ 1 ∧
    (GetConversationList okListDeps).2.items =
      [⟨"9.9.9.9", some sampleIP, "r1"⟩, ⟨"9.9.9.9", some sampleIP, "r2"⟩] := by
  have h := C8_lookup_dedup okListDeps
    [⟨"9.9.9.9", none, "r1"⟩, ⟨"9.9.9.9", none, "r2"⟩] 2
    "9.9.9.9" sampleIP rfl rfl
  exact ⟨h.1, h.2.1.trans (by rfl)⟩

/-- C8 is false as stated: two rows share the remote IP `9.9.9.9`,
which never resolves; the request-scoped map is only populated on
success, so both rows issue a lookup — two lookups for one shared
IP. -/
theorem C8_counterexample :
    (GetConversationList failingListDeps).2.lookups = ["9.9.9.9", "9.9.9.9"] ∧
    ¬ ((GetConversationList failingListDeps).2.lookups.count "9.9.9.9" ≤ 1) :=
  ⟨rfl, by decide⟩

/-- C9: on a sweep tick whose repository call follows the 24-hour
contract, every stat record older than 24 hours (relative to the
tick's wall-clock time) is deleted and every record newer than 24
hours survives; a tick whose deletion errors leaves the records
untouched and only logs the failure, deferring cleanup to the next
tick.  Settled against a model of `RemoveOldData`, whose body is not
in the shown source. -/
theorem C9_retention_tick (now : Nat) (records : List StatRecord) :
    (∀ r ∈ records, r.ts + 86400 < now →
        r ∉ (RemoveOldStatData (goodStatDeps now) records).1) ∧
    (∀ r ∈ records, now < r.ts + 86400 →
        r ∈ (RemoveOldStatData (goodStatDeps now) records).1) ∧
    (∀ (deps : StatDeps) (e : String), deps.removeOldData records = .error e →
        (RemoveOldStatData deps records).1 = records ∧
        ("remove old stat data failed: " ++ e) ∈ (RemoveOldStatData deps records).2) := by
  refine ⟨?_, ?_, ?_⟩
  · intro r hr hold
    simp [RemoveOldStatData, goodStatDeps, RemoveOldData, List.mem_filter, hold]
  · intro r hr hnew
    have hkeep : ¬ (r.ts + 86400 < now) := by omega
    simp [RemoveOldStatData, goodStatDeps, RemoveOldData, List.mem_filter, hkeep, hr]
  · intro deps e he
    constructor
    · simp [RemoveOldStatData, he]
    · simp [RemoveOldStatData, he]

theorem C9_witness :
    oldRec ∉ (RemoveOldStatData (goodStatDeps 200000) [oldRec, newRec]).1 ∧
    newRec ∈ (RemoveOldStatData (goodStatDeps 200000) [oldRec, newRec]).1 ∧
    (RemoveOldStatData failingStatDeps [oldRec, newRec]).1 = [oldRec, newRec] := by
  have h := C9_retention_tick 200000 [oldRec, newRec]
  exact ⟨h.1 oldRec (by decide) (by decide),
    h.2.1 newRec (by decide) (by decide),
    (h.2.2 failingStatDeps "db down" rfl).1⟩

end PandaWiki
